import Mathlib

/-!
Shallow embedding of the core of the analisis-rotondas repository.

Covered source code:
- src/services/javat.py, class DetectionsManager (the zone-crossing event
  tracker): python dicts are modelled as association lists in insertion order,
  python sets as duplicate-free lists, times as rationals.
- src/python/services/stabilizer.py and src/services/stabilizer.py, function
  video_stabilizer (the two stabilization engines): frames are records carrying
  their pixel dimensions and an abstract payload; the OpenCV operations the code
  consumes (cvtColor, goodFeaturesToTrack, calcOpticalFlowPyrLK, findHomography,
  warpPerspective) are an oracle record of abstract functions, except that
  warpPerspective is known to produce a frame of exactly the requested target
  size, which is reflected in the embedding.
-/

set_option maxHeartbeats 1000000

namespace Rotondas

/-! ### Zone-crossing event tracker (src/services/javat.py) -/

/-- One detection observed inside a zone: its tracker id together with the
vehicle type attribute. The value none models the AttributeError fallback in
DetectionsManager.update (taken when the detections object carries no
vehicle_type array), which substitutes the string Desconocido. -/
structure Obs where
  tracker_id : ℕ
  vehicle_type : Option String
deriving DecidableEq

/-- Value stored in tracker_entry_info for an open record:
(zone_in_id, entry time in seconds, vehicle type). -/
structure EntryInfo where
  zone_in_id : ℕ
  entry_time : ℚ
  vehicle_type : String
deriving DecidableEq

/-- One record appended to DetectionsManager.events (the dict built at
src/services/javat.py lines 135-146). -/
structure Event where
  id : ℕ
  num_rotonda : String
  horario : String
  dia : String
  id_entrada : ℕ
  id_salida : ℕ
  tiempo_entrada : ℚ
  tiempo_salida : ℚ
  tiempo_dentro : ℚ
  tipo_vehiculo : String
deriving DecidableEq

/-- State of a DetectionsManager (src/services/javat.py lines 79-93). -/
structure DetectionsManager where
  num_rotonda : String
  horario : String
  dia : String
  fps : ℚ
  tracker_id_to_zone_id : List (ℕ × ℕ)
  counts : List (ℕ × List (ℕ × List ℕ))
  tracker_entry_info : List (ℕ × EntryInfo)
  events : List Event
  event_counter : ℕ
deriving DecidableEq

/-- Lookup in an association list modelling a python dict (first binding for
the key wins; guarded insertion keeps keys unique). -/
def al_lookup {β : Type} (k : ℕ) : List (ℕ × β) → Option β
  | [] => none
  | p :: rest => if p.1 = k then some p.2 else al_lookup k rest

/-- dict.setdefault: insert the binding only when the key is absent. -/
def al_setdefault {β : Type} (k : ℕ) (v : β) (l : List (ℕ × β)) : List (ℕ × β) :=
  match al_lookup k l with
  | some _ => l
  | none => l ++ [(k, v)]

/-- del dict[k]: remove the binding for the key. -/
def al_erase {β : Type} (k : ℕ) (l : List (ℕ × β)) : List (ℕ × β) :=
  l.filter fun p => decide (p.1 ≠ k)

/-- dict.setdefault followed by an update of the value stored at the key. -/
def al_modify {β : Type} (k : ℕ) (dflt : β) (f : β → β) : List (ℕ × β) → List (ℕ × β)
  | [] => [(k, f dflt)]
  | p :: rest => if p.1 = k then (p.1, f p.2) :: rest else p :: al_modify k dflt f rest

/-- set.add on a python set modelled as a duplicate-free list. -/
def set_add (x : ℕ) (s : List ℕ) : List ℕ := if x ∈ s then s else s ++ [x]

/-- Body of the entry-registration loop of DetectionsManager.update
(src/services/javat.py lines 109-117) for a single observation: when the
tracker id has no open record, store (zone_in_id, time in seconds, vehicle
type) in tracker_entry_info and setdefault tracker_id_to_zone_id; otherwise do
nothing. -/
def entry_obs_step (time_seconds : ℚ) (zone_in_id : ℕ) (m : DetectionsManager)
    (ob : Obs) : DetectionsManager :=
  match al_lookup ob.tracker_id m.tracker_entry_info with
  | some _ => m
  | none =>
      let vehicle_type := ob.vehicle_type.getD "Desconocido"
      { m with
          tracker_entry_info :=
            m.tracker_entry_info ++ [(ob.tracker_id, ⟨zone_in_id, time_seconds, vehicle_type⟩)],
          tracker_id_to_zone_id := al_setdefault ob.tracker_id zone_in_id m.tracker_id_to_zone_id }

/-- Inner loop over the detections observed in one entry zone. -/
def entry_zone_step (time_seconds : ℚ) (zone_in_id : ℕ) (m : DetectionsManager)
    (z : List Obs) : DetectionsManager :=
  z.foldl (entry_obs_step time_seconds zone_in_id) m

/-- Outer loop enumerate(detections_in_zones) of DetectionsManager.update
(src/services/javat.py lines 108-117), carrying the running zone index. -/
def entry_phase (time_seconds : ℚ) :
    List (List Obs) → ℕ → DetectionsManager → DetectionsManager
  | [], _, m => m
  | z :: rest, zone_in_id, m =>
      entry_phase time_seconds rest (zone_in_id + 1) (entry_zone_step time_seconds zone_in_id m z)

/-- Body of the transition-registration loop of DetectionsManager.update
(src/services/javat.py lines 120-151) for a single observed tracker id: when
the id has an open record, register the count, append the completed event and
delete the open record; otherwise do nothing. -/
def exit_obs_step (time_seconds : ℚ) (zone_out_id : ℕ) (m : DetectionsManager)
    (tracker_id : ℕ) : DetectionsManager :=
  match al_lookup tracker_id m.tracker_entry_info with
  | none => m
  | some info =>
      let exit_time := time_seconds
      let time_inside := exit_time - info.entry_time
      { m with
          counts := al_modify zone_out_id []
            (al_modify info.zone_in_id [] (set_add tracker_id)) m.counts,
          events := m.events ++
            [⟨tracker_id, m.num_rotonda, m.horario, m.dia, info.zone_in_id, zone_out_id,
              info.entry_time, exit_time, time_inside, info.vehicle_type⟩],
          event_counter := m.event_counter + 1,
          tracker_entry_info := al_erase tracker_id m.tracker_entry_info }

/-- Inner loop over the tracker ids observed in one exit zone. -/
def exit_zone_step (time_seconds : ℚ) (zone_out_id : ℕ) (m : DetectionsManager)
    (z : List ℕ) : DetectionsManager :=
  z.foldl (exit_obs_step time_seconds zone_out_id) m

/-- Outer loop enumerate(detections_out_zones) of DetectionsManager.update
(src/services/javat.py lines 120-151), carrying the running zone index. -/
def exit_phase (time_seconds : ℚ) :
    List (List ℕ) → ℕ → DetectionsManager → DetectionsManager
  | [], _, m => m
  | z :: rest, zone_out_id, m =>
      exit_phase time_seconds rest (zone_out_id + 1) (exit_zone_step time_seconds zone_out_id m z)

/-- DetectionsManager.update (src/services/javat.py lines 95-161): convert the
frame time to seconds by dividing by the fps, run the entry-registration loop,
then the transition-registration loop. The returned value of the python method
(detections_all filtered by class_id, used only for frame annotation) does not
touch the manager state and is not modelled. -/
def DetectionsManager.update (m : DetectionsManager) (detections_in_zones : List (List Obs))
    (detections_out_zones : List (List ℕ)) (frame_time : ℚ) : DetectionsManager :=
  let time_seconds := frame_time / m.fps
  exit_phase time_seconds detections_out_zones 0
    (entry_phase time_seconds detections_in_zones 0 m)

/-- DetectionsManager.__init__ (src/services/javat.py lines 79-93). -/
def DetectionsManager.init (num_rotonda horario dia : String) (fps : ℚ) : DetectionsManager :=
  ⟨num_rotonda, horario, dia, fps, [], [], [], [], 0⟩

/-- Arguments of one call to DetectionsManager.update. -/
structure UpdIn where
  detections_in_zones : List (List Obs)
  detections_out_zones : List (List ℕ)
  frame_time : ℚ

/-- A run of the tracker: a sequence of update calls applied in order. -/
def run_updates : DetectionsManager → List UpdIn → DetectionsManager
  | m, [] => m
  | m, u :: rest =>
      run_updates (m.update u.detections_in_zones u.detections_out_zones u.frame_time) rest

/-- Whether a tracker id currently has an open record. -/
def is_open (m : DetectionsManager) (tracker_id : ℕ) : Bool :=
  (al_lookup tracker_id m.tracker_entry_info).isSome

/-- 1 when the tracker id has an open record, 0 otherwise. -/
def open_count (m : DetectionsManager) (tracker_id : ℕ) : ℕ :=
  if is_open m tracker_id then 1 else 0

/-- Whether some entry zone of an update call contains an observation of the
given tracker id. -/
def has_entry_obs (tracker_id : ℕ) (zones : List (List Obs)) : Bool :=
  zones.any fun z => z.any fun ob => ob.tracker_id == tracker_id

/-- Number of update calls of a run at which a fresh record is opened for the
tracker id: calls where the id has no open record and is observed in some
entry zone. -/
def count_openings (tracker_id : ℕ) : DetectionsManager → List UpdIn → ℕ
  | _, [] => 0
  | m, u :: rest =>
      (if is_open m tracker_id = false ∧ has_entry_obs tracker_id u.detections_in_zones = true
        then 1 else 0)
      + count_openings tracker_id
          (m.update u.detections_in_zones u.detections_out_zones u.frame_time) rest

/-- Number of emitted events carrying the given tracker id. -/
def count_events_for (tracker_id : ℕ) (events : List Event) : ℕ :=
  (events.filter fun e => e.id == tracker_id).length

/-- First zone (in enumeration order starting at the given index) containing
an observation of the tracker id, together with that observation's vehicle
type; none when no zone contains the id. -/
def first_entry_match (tracker_id : ℕ) : List (List Obs) → ℕ → Option (ℕ × Option String)
  | [], _ => none
  | z :: rest, i =>
      match z.find? (fun ob => ob.tracker_id == tracker_id) with
      | some ob => some (i, ob.vehicle_type)
      | none => first_entry_match tracker_id rest (i + 1)

/-- First exit zone (in enumeration order starting at the given index) whose
observation list contains the tracker id. -/
def first_exit_match (tracker_id : ℕ) : List (List ℕ) → ℕ → Option ℕ
  | [], _ => none
  | z :: rest, i => if tracker_id ∈ z then some i else first_exit_match tracker_id rest (i + 1)

/-- All tracker ids observed in the exit zones of one update call. -/
def exit_ids : List (List ℕ) → List ℕ
  | [] => []
  | z :: rest => z ++ exit_ids rest

/-- Every emitted event has its exit time at or after its entry time. -/
def events_ok (m : DetectionsManager) : Prop :=
  ∀ ev ∈ m.events, ev.tiempo_entrada ≤ ev.tiempo_salida

/-- Every open record was entered at or before the given time bound. -/
def info_le (m : DetectionsManager) (b : ℚ) : Prop :=
  ∀ p ∈ m.tracker_entry_info, p.2.entry_time ≤ b

/-! ### Stabilization engines (src/python/services/stabilizer.py and
src/services/stabilizer.py) -/

/-- A decoded video frame: pixel dimensions plus an abstract pixel payload. -/
structure Frame where
  width : ℕ
  height : ℕ
  data : ℕ
deriving DecidableEq

/-- A grayscale frame, abstract. -/
abbrev Gray := ℕ

/-- A 2-D feature point coordinate. -/
abbrev Point := ℚ × ℚ

/-- A 3 by 3 projective transform matrix. -/
structure Homography where
  h00 : ℚ
  h01 : ℚ
  h02 : ℚ
  h10 : ℚ
  h11 : ℚ
  h12 : ℚ
  h20 : ℚ
  h21 : ℚ
  h22 : ℚ
deriving DecidableEq

/-- The OpenCV operations consumed by video_stabilizer, as black-box functions.
calcOpticalFlowPyrLK returning none models the branch where puntos_nuevos or
status is None; the list of booleans is the flattened status array compared
with 1. goodFeaturesToTrack returning none models a None result. warpData is
the pixel payload produced by warpPerspective for a given target size. -/
structure CVOracle where
  cvtColor : Frame → Gray
  goodFeaturesToTrack : Gray → ℕ → ℚ → ℚ → Option (List Point)
  calcOpticalFlowPyrLK : Gray → Gray → List Point → Option (List Point × List Bool)
  findHomography : List Point → List Point → Option Homography
  warpData : Frame → Homography → ℕ → ℕ → ℕ

/-- cv2.warpPerspective(frame, H, (ancho, alto)): the output frame has exactly
the requested target size. -/
def warpPerspective (o : CVOracle) (f : Frame) (H : Homography) (ancho alto : ℕ) : Frame :=
  ⟨ancho, alto, o.warpData f H ancho alto⟩

/-- An input video as decoded by cv2.VideoCapture: whether it opens, the
container-reported width and height (cap.get of CAP_PROP_FRAME_WIDTH and
CAP_PROP_FRAME_HEIGHT), the fixed decoded-frame width and height, and the
sequence of decoded frame payloads. -/
structure Video where
  opens : Bool
  container_width : ℕ
  container_height : ℕ
  frame_width : ℕ
  frame_height : ℕ
  frames : List ℕ
deriving DecidableEq

/-- The sequence of frames read by successive cap.read() calls. -/
def Video.decode (v : Video) : List Frame :=
  v.frames.map fun d => ⟨v.frame_width, v.frame_height, d⟩

/-- numpy boolean-mask selection points[status == 1]. -/
def mask_filter {α : Type} : List α → List Bool → List α
  | [], _ => []
  | _ :: _, [] => []
  | x :: xs, b :: bs => if b then x :: mask_filter xs bs else mask_filter xs bs

/-- Output frame of one loop iteration together with the point state adopted
for the next iteration. -/
structure StepOut where
  out_frame : Frame
  tracked : List Point
  ref : List Point
deriving DecidableEq

/-- Outcome of a stabilizer run. -/
inductive StabStatus
  | notOpened
  | noFirstFrame
  | insufficientFeatures
  | completed
deriving DecidableEq

/-- Result of a stabilizer run: its outcome plus the per-frame outputs and
adopted point states. -/
structure StabResult where
  status : StabStatus
  steps : List StepOut
deriving DecidableEq

/-- The frames written to the output video, in order. -/
def StabResult.written (r : StabResult) : List Frame :=
  r.steps.map fun s => s.out_frame

/-- The while-True loop shared by both video_stabilizer versions
(src/python/services/stabilizer.py lines 61-115, src/services/stabilizer.py
lines 78-142): track puntos_iniciales, on a hard tracking failure or a length
mismatch write the raw frame and keep the point sets, otherwise filter all
three point sets by the status mask, write the raw frame when fewer than 4
points survive or the homography fails, and otherwise write the warped frame;
finally adopt the filtered new positions and filtered references. -/
def stabilize_loop (o : CVOracle) (ancho alto : ℕ) :
    List Frame → Gray → List Point → List Point → List StepOut
  | [], _, _, _ => []
  | frame_actual :: rest, frame_anterior_gray, puntos_iniciales, puntos_ref =>
    let frame_actual_gray := o.cvtColor frame_actual
    match o.calcOpticalFlowPyrLK frame_anterior_gray frame_actual_gray puntos_iniciales with
    | none =>
        ⟨frame_actual, puntos_iniciales, puntos_ref⟩ ::
          stabilize_loop o ancho alto rest frame_actual_gray puntos_iniciales puntos_ref
    | some (puntos_nuevos, status) =>
        if status.length ≠ puntos_iniciales.length ∨ status.length ≠ puntos_nuevos.length then
          ⟨frame_actual, puntos_iniciales, puntos_ref⟩ ::
            stabilize_loop o ancho alto rest frame_actual_gray puntos_iniciales puntos_ref
        else
          let puntos_iniciales_filtrados := mask_filter puntos_iniciales status
          let puntos_nuevos_filtrados := mask_filter puntos_nuevos status
          let puntos_ref_filtrados := mask_filter puntos_ref status
          let out_frame :=
            if puntos_iniciales_filtrados.length < 4 then frame_actual
            else
              match o.findHomography puntos_nuevos_filtrados puntos_ref_filtrados with
              | some H => warpPerspective o frame_actual H ancho alto
              | none => frame_actual
          ⟨out_frame, puntos_nuevos_filtrados, puntos_ref_filtrados⟩ ::
            stabilize_loop o ancho alto rest frame_actual_gray
              puntos_nuevos_filtrados puntos_ref_filtrados

/-- video_stabilizer of src/python/services/stabilizer.py (lines 4-119): read
the first frame, take the output dimensions from the first frame's shape,
detect features on the first frame, abort when None or fewer than 4 are found,
and otherwise run the tracking loop over the remaining frames. Writing the
output file and the printed messages are represented by the step list and the
status. -/
def video_stabilizer_py (o : CVOracle) (max_features : ℕ)
    (quality_level min_distance : ℚ) (v : Video) : StabResult :=
  if v.opens = false then ⟨.notOpened, []⟩
  else
    match v.decode with
    | [] => ⟨.noFirstFrame, []⟩
    | primer_frame :: rest =>
        let alto := primer_frame.height
        let ancho := primer_frame.width
        let primer_gray := o.cvtColor primer_frame
        match o.goodFeaturesToTrack primer_gray max_features quality_level min_distance with
        | none => ⟨.insufficientFeatures, []⟩
        | some puntos_iniciales =>
            if puntos_iniciales.length < 4 then ⟨.insufficientFeatures, []⟩
            else
              ⟨.completed,
                stabilize_loop o ancho alto rest primer_gray puntos_iniciales puntos_iniciales⟩

/-- video_stabilizer of src/services/stabilizer.py (lines 4-146): identical to
the src/python/services version except that the output dimensions are the
container-reported CAP_PROP_FRAME_WIDTH and CAP_PROP_FRAME_HEIGHT, read before
the first frame. -/
def video_stabilizer_srv (o : CVOracle) (max_features : ℕ)
    (quality_level min_distance : ℚ) (v : Video) : StabResult :=
  if v.opens = false then ⟨.notOpened, []⟩
  else
    let ancho := v.container_width
    let alto := v.container_height
    match v.decode with
    | [] => ⟨.noFirstFrame, []⟩
    | primer_frame :: rest =>
        let primer_gray := o.cvtColor primer_frame
        match o.goodFeaturesToTrack primer_gray max_features quality_level min_distance with
        | none => ⟨.insufficientFeatures, []⟩
        | some puntos_iniciales =>
            if puntos_iniciales.length < 4 then ⟨.insufficientFeatures, []⟩
            else
              ⟨.completed,
                stabilize_loop o ancho alto rest primer_gray puntos_iniciales puntos_iniciales⟩

/-! ### Concrete inputs used by witnesses and counterexamples -/

/-- Four concrete feature points. -/
def pts4 : List Point := [(0, 0), (1, 0), (0, 1), (1, 1)]

/-- Oracle that detects four points, tracks every point successfully in place,
and never finds a homography. -/
def oracleA : CVOracle where
  cvtColor := fun f => f.data
  goodFeaturesToTrack := fun _ _ _ _ => some pts4
  calcOpticalFlowPyrLK := fun _ _ ps => some (ps, ps.map fun _ => true)
  findHomography := fun _ _ => none
  warpData := fun _ _ _ _ => 0

/-- Oracle that detects a single point on the first frame. -/
def oracleB : CVOracle :=
  { oracleA with goodFeaturesToTrack := fun _ _ _ _ => some [(0, 0)] }

/-- Oracle whose optical flow marks only the first three points as tracked. -/
def oracleC : CVOracle :=
  { oracleA with
      calcOpticalFlowPyrLK := fun _ _ ps =>
        some (ps, [true, true, true] ++ List.replicate (ps.length - 3) false) }

/-- A one-frame 2 by 2 video whose container metadata matches its frames. -/
def vid1 : Video := ⟨true, 2, 2, 2, 2, [10]⟩

/-- A two-frame 2 by 2 video whose container metadata matches its frames. -/
def vid2 : Video := ⟨true, 2, 2, 2, 2, [10, 11]⟩

/-! ### Association-list lemmas -/

theorem al_lookup_append_of_none {β : Type} {k : ℕ} {l1 : List (ℕ × β)} (l2 : List (ℕ × β))
    (h : al_lookup k l1 = none) : al_lookup k (l1 ++ l2) = al_lookup k l2 := by
  induction l1 with
  | nil => rfl
  | cons p rest ih =>
      by_cases hp : p.1 = k
      · simp [al_lookup, hp] at h
      · simp only [al_lookup, hp, if_false, List.cons_append] at h ⊢
        exact ih h

theorem al_lookup_append_of_some {β : Type} {k : ℕ} {l1 : List (ℕ × β)} {v : β}
    (l2 : List (ℕ × β)) (h : al_lookup k l1 = some v) :
    al_lookup k (l1 ++ l2) = some v := by
  induction l1 with
  | nil => simp [al_lookup] at h
  | cons p rest ih =>
      by_cases hp : p.1 = k
      · simp only [al_lookup, hp, if_true] at h
        simp [al_lookup, hp, h]
      · simp only [al_lookup, hp, if_false] at h
        simp only [List.cons_append, al_lookup, hp, if_false]
        exact ih h

theorem al_lookup_singleton_ne {β : Type} {k j : ℕ} {v : β} (h : j ≠ k) :
    al_lookup k [(j, v)] = none := by
  simp [al_lookup, h]

theorem al_erase_cons {β : Type} (k : ℕ) (p : ℕ × β) (rest : List (ℕ × β)) :
    al_erase k (p :: rest) = if p.1 = k then al_erase k rest else p :: al_erase k rest := by
  by_cases h : p.1 = k <;> simp [al_erase, h]

theorem al_lookup_erase_self {β : Type} (k : ℕ) (l : List (ℕ × β)) :
    al_lookup k (al_erase k l) = none := by
  induction l with
  | nil => rfl
  | cons p rest ih =>
      rw [al_erase_cons]
      by_cases hp : p.1 = k
      · simpa [hp] using ih
      · simpa [hp, al_lookup] using ih

theorem al_lookup_erase_ne {β : Type} {k j : ℕ} (l : List (ℕ × β)) (h : j ≠ k) :
    al_lookup k (al_erase j l) = al_lookup k l := by
  induction l with
  | nil => rfl
  | cons p rest ih =>
      rw [al_erase_cons]
      by_cases hpj : p.1 = j
      · have hpk : p.1 ≠ k := by omega
        simpa [hpj, al_lookup, hpk, h, Ne.symm h] using ih
      · by_cases hpk : p.1 = k
        · simp [hpj, al_lookup, hpk, h, Ne.symm h]
        · simpa [hpj, al_lookup, hpk, h, Ne.symm h] using ih

theorem al_lookup_mem {β : Type} {k : ℕ} {l : List (ℕ × β)} {v : β}
    (h : al_lookup k l = some v) : (k, v) ∈ l := by
  induction l with
  | nil => simp [al_lookup] at h
  | cons p rest ih =>
      by_cases hp : p.1 = k
      · simp only [al_lookup, hp, if_true, Option.some.injEq] at h
        have hpv : p = (k, v) := by
          cases p
          simp only [Prod.mk.injEq]
          exact ⟨hp, h⟩
        rw [← hpv]
        exact List.mem_cons_self _ _
      · simp only [al_lookup, hp, if_false] at h
        exact List.mem_cons_of_mem _ (ih h)

/-! ### Unfolding equations for the zone folds -/

theorem entry_zone_step_nil (t : ℚ) (i : ℕ) (m : DetectionsManager) :
    entry_zone_step t i m [] = m := rfl

theorem entry_zone_step_cons (t : ℚ) (i : ℕ) (m : DetectionsManager) (ob : Obs) (z : List Obs) :
    entry_zone_step t i m (ob :: z) = entry_zone_step t i (entry_obs_step t i m ob) z := rfl

theorem exit_zone_step_nil (t : ℚ) (i : ℕ) (m : DetectionsManager) :
    exit_zone_step t i m [] = m := rfl

theorem exit_zone_step_cons (t : ℚ) (i : ℕ) (m : DetectionsManager) (k : ℕ) (z : List ℕ) :
    exit_zone_step t i m (k :: z) = exit_zone_step t i (exit_obs_step t i m k) z := rfl

theorem entry_phase_nil (t : ℚ) (i : ℕ) (m : DetectionsManager) :
    entry_phase t [] i m = m := rfl

theorem entry_phase_cons (t : ℚ) (i : ℕ) (m : DetectionsManager) (z : List Obs)
    (rest : List (List Obs)) :
    entry_phase t (z :: rest) i m = entry_phase t rest (i + 1) (entry_zone_step t i m z) := rfl

theorem exit_phase_nil (t : ℚ) (i : ℕ) (m : DetectionsManager) :
    exit_phase t [] i m = m := rfl

theorem exit_phase_cons (t : ℚ) (i : ℕ) (m : DetectionsManager) (z : List ℕ)
    (rest : List (List ℕ)) :
    exit_phase t (z :: rest) i m = exit_phase t rest (i + 1) (exit_zone_step t i m z) := rfl

/-! ### Fields preserved by the phases -/

theorem entry_obs_step_events (t : ℚ) (i : ℕ) (m : DetectionsManager) (ob : Obs) :
    (entry_obs_step t i m ob).events = m.events := by
  unfold entry_obs_step
  cases al_lookup ob.tracker_id m.tracker_entry_info <;> rfl

theorem entry_obs_step_fps (t : ℚ) (i : ℕ) (m : DetectionsManager) (ob : Obs) :
    (entry_obs_step t i m ob).fps = m.fps := by
  unfold entry_obs_step
  cases al_lookup ob.tracker_id m.tracker_entry_info <;> rfl

theorem entry_zone_step_events (t : ℚ) (i : ℕ) (z : List Obs) (m : DetectionsManager) :
    (entry_zone_step t i m z).events = m.events := by
  induction z generalizing m with
  | nil => rfl
  | cons ob z ih =>
      rw [entry_zone_step_cons]
      exact (ih _).trans (entry_obs_step_events t i m ob)

theorem entry_zone_step_fps (t : ℚ) (i : ℕ) (z : List Obs) (m : DetectionsManager) :
    (entry_zone_step t i m z).fps = m.fps := by
  induction z generalizing m with
  | nil => rfl
  | cons ob z ih =>
      rw [entry_zone_step_cons]
      exact (ih _).trans (entry_obs_step_fps t i m ob)

theorem entry_phase_events (t : ℚ) (zones : List (List Obs)) (i : ℕ) (m : DetectionsManager) :
    (entry_phase t zones i m).events = m.events := by
  induction zones generalizing i m with
  | nil => rfl
  | cons z rest ih =>
      rw [entry_phase_cons]
      exact (ih _ _).trans (entry_zone_step_events t i z m)

theorem entry_phase_fps (t : ℚ) (zones : List (List Obs)) (i : ℕ) (m : DetectionsManager) :
    (entry_phase t zones i m).fps = m.fps := by
  induction zones generalizing i m with
  | nil => rfl
  | cons z rest ih =>
      rw [entry_phase_cons]
      exact (ih _ _).trans (entry_zone_step_fps t i z m)

theorem exit_obs_step_fps (t : ℚ) (i : ℕ) (m : DetectionsManager) (k : ℕ) :
    (exit_obs_step t i m k).fps = m.fps := by
  unfold exit_obs_step
  cases al_lookup k m.tracker_entry_info <;> rfl

theorem exit_obs_step_strings (t : ℚ) (i : ℕ) (m : DetectionsManager) (k : ℕ) :
    (exit_obs_step t i m k).num_rotonda = m.num_rotonda ∧
    (exit_obs_step t i m k).horario = m.horario ∧
    (exit_obs_step t i m k).dia = m.dia := by
  unfold exit_obs_step
  cases al_lookup k m.tracker_entry_info <;> exact ⟨rfl, rfl, rfl⟩

theorem exit_zone_step_fps (t : ℚ) (i : ℕ) (z : List ℕ) (m : DetectionsManager) :
    (exit_zone_step t i m z).fps = m.fps := by
  induction z generalizing m with
  | nil => rfl
  | cons k z ih =>
      rw [exit_zone_step_cons]
      exact (ih _).trans (exit_obs_step_fps t i m k)

theorem exit_zone_step_strings (t : ℚ) (i : ℕ) (z : List ℕ) (m : DetectionsManager) :
    (exit_zone_step t i m z).num_rotonda = m.num_rotonda ∧
    (exit_zone_step t i m z).horario = m.horario ∧
    (exit_zone_step t i m z).dia = m.dia := by
  induction z generalizing m with
  | nil => exact ⟨rfl, rfl, rfl⟩
  | cons k z ih =>
      rw [exit_zone_step_cons]
      obtain ⟨h1, h2, h3⟩ := ih (exit_obs_step t i m k)
      obtain ⟨g1, g2, g3⟩ := exit_obs_step_strings t i m k
      exact ⟨h1.trans g1, h2.trans g2, h3.trans g3⟩

theorem exit_phase_fps (t : ℚ) (zones : List (List ℕ)) (i : ℕ) (m : DetectionsManager) :
    (exit_phase t zones i m).fps = m.fps := by
  induction zones generalizing i m with
  | nil => rfl
  | cons z rest ih =>
      rw [exit_phase_cons]
      exact (ih _ _).trans (exit_zone_step_fps t i z m)

theorem exit_phase_strings (t : ℚ) (zones : List (List ℕ)) (i : ℕ) (m : DetectionsManager) :
    (exit_phase t zones i m).num_rotonda = m.num_rotonda ∧
    (exit_phase t zones i m).horario = m.horario ∧
    (exit_phase t zones i m).dia = m.dia := by
  induction zones generalizing i m with
  | nil => exact ⟨rfl, rfl, rfl⟩
  | cons z rest ih =>
      obtain ⟨h1, h2, h3⟩ := ih (i + 1) (exit_zone_step t i m z)
      obtain ⟨g1, g2, g3⟩ := exit_zone_step_strings t i z m
      exact ⟨h1.trans g1, h2.trans g2, h3.trans g3⟩

/-! ### Openness of a tracker id through the entry phase -/

theorem entry_obs_step_lookup_some {t : ℚ} {i : ℕ} {m : DetectionsManager} {ob : Obs}
    {tid : ℕ} {r : EntryInfo} (h : al_lookup tid m.tracker_entry_info = some r) :
    al_lookup tid (entry_obs_step t i m ob).tracker_entry_info = some r := by
  unfold entry_obs_step
  split
  · exact h
  · exact al_lookup_append_of_some _ h

theorem entry_obs_step_lookup_ne {t : ℚ} {i : ℕ} {m : DetectionsManager} {ob : Obs}
    {tid : ℕ} (hne : ob.tracker_id ≠ tid) :
    al_lookup tid (entry_obs_step t i m ob).tracker_entry_info
      = al_lookup tid m.tracker_entry_info := by
  unfold entry_obs_step
  split
  · rfl
  · cases hv : al_lookup tid m.tracker_entry_info with
    | some v => exact al_lookup_append_of_some _ hv
    | none => exact (al_lookup_append_of_none _ hv).trans (al_lookup_singleton_ne hne)

theorem entry_obs_step_open (t : ℚ) (i : ℕ) (m : DetectionsManager) (ob : Obs) (tid : ℕ) :
    is_open (entry_obs_step t i m ob) tid = (is_open m tid || (ob.tracker_id == tid)) := by
  by_cases he : ob.tracker_id = tid
  · subst he
    unfold is_open entry_obs_step
    split
    · next r hl => simp [hl]
    · next hl =>
        rw [al_lookup_append_of_none _ hl]
        simp [al_lookup, hl]
  · unfold is_open
    rw [entry_obs_step_lookup_ne he]
    simp [he]

theorem entry_zone_step_lookup_some {t : ℚ} {i : ℕ} {z : List Obs} {m : DetectionsManager}
    {tid : ℕ} {r : EntryInfo} (h : al_lookup tid m.tracker_entry_info = some r) :
    al_lookup tid (entry_zone_step t i m z).tracker_entry_info = some r := by
  induction z generalizing m with
  | nil => exact h
  | cons ob z ih =>
      rw [entry_zone_step_cons]
      exact ih (entry_obs_step_lookup_some h)

theorem entry_zone_step_open (t : ℚ) (i : ℕ) (z : List Obs) (m : DetectionsManager) (tid : ℕ) :
    is_open (entry_zone_step t i m z) tid
      = (is_open m tid || z.any fun ob => ob.tracker_id == tid) := by
  induction z generalizing m with
  | nil => simp [entry_zone_step_nil]
  | cons ob z ih =>
      rw [entry_zone_step_cons, ih, entry_obs_step_open]
      simp [Bool.or_assoc]

theorem entry_phase_lookup_some {t : ℚ} {zones : List (List Obs)} {i : ℕ}
    {m : DetectionsManager} {tid : ℕ} {r : EntryInfo}
    (h : al_lookup tid m.tracker_entry_info = some r) :
    al_lookup tid (entry_phase t zones i m).tracker_entry_info = some r := by
  induction zones generalizing i m with
  | nil => exact h
  | cons z rest ih =>
      rw [entry_phase_cons]
      exact ih (entry_zone_step_lookup_some h)

theorem entry_phase_open (t : ℚ) (zones : List (List Obs)) (i : ℕ) (m : DetectionsManager)
    (tid : ℕ) :
    is_open (entry_phase t zones i m) tid = (is_open m tid || has_entry_obs tid zones) := by
  induction zones generalizing i m with
  | nil => simp [entry_phase_nil, has_entry_obs]
  | cons z rest ih =>
      rw [entry_phase_cons, ih, entry_zone_step_open]
      simp [has_entry_obs, Bool.or_assoc]

theorem entry_phase_open_count (t : ℚ) (zones : List (List Obs)) (i : ℕ)
    (m : DetectionsManager) (tid : ℕ) :
    open_count (entry_phase t zones i m) tid
      = open_count m tid
        + (if is_open m tid = false ∧ has_entry_obs tid zones = true then 1 else 0) := by
  unfold open_count
  rw [entry_phase_open]
  cases hs : is_open m tid <;> cases hh : has_entry_obs tid zones <;> simp [hs, hh]

/-! ### Event accounting through the exit phase -/

theorem count_events_for_append_one (tid : ℕ) (evs : List Event) (e : Event) :
    count_events_for tid (evs ++ [e])
      = count_events_for tid evs + (if e.id = tid then 1 else 0) := by
  unfold count_events_for
  rw [List.filter_append, List.length_append]
  by_cases h : e.id = tid <;> simp [h]

theorem exit_obs_step_accounting (t : ℚ) (i : ℕ) (m : DetectionsManager) (k tid : ℕ) :
    count_events_for tid (exit_obs_step t i m k).events
      + open_count (exit_obs_step t i m k) tid
      = count_events_for tid m.events + open_count m tid := by
  unfold exit_obs_step
  split
  · rfl
  · next info hl =>
      by_cases hk : k = tid
      · subst hk
        rw [count_events_for_append_one]
        unfold open_count is_open
        rw [al_lookup_erase_self]
        simp [hl]
      · rw [count_events_for_append_one]
        unfold open_count is_open
        rw [al_lookup_erase_ne _ hk]
        simp [hk]

theorem exit_zone_step_accounting (t : ℚ) (i : ℕ) (z : List ℕ) (m : DetectionsManager)
    (tid : ℕ) :
    count_events_for tid (exit_zone_step t i m z).events
      + open_count (exit_zone_step t i m z) tid
      = count_events_for tid m.events + open_count m tid := by
  induction z generalizing m with
  | nil => rfl
  | cons k z ih =>
      rw [exit_zone_step_cons]
      exact (ih _).trans (exit_obs_step_accounting t i m k tid)

theorem exit_phase_accounting (t : ℚ) (zones : List (List ℕ)) (i : ℕ) (m : DetectionsManager)
    (tid : ℕ) :
    count_events_for tid (exit_phase t zones i m).events
      + open_count (exit_phase t zones i m) tid
      = count_events_for tid m.events + open_count m tid := by
  induction zones generalizing i m with
  | nil => rfl
  | cons z rest ih =>
      rw [exit_phase_cons]
      exact (ih _ _).trans (exit_zone_step_accounting t i z m tid)

theorem update_accounting (m : DetectionsManager) (ez : List (List Obs))
    (xz : List (List ℕ)) (ft : ℚ) (tid : ℕ) :
    count_events_for tid (m.update ez xz ft).events + open_count (m.update ez xz ft) tid
      = count_events_for tid m.events + open_count m tid
        + (if is_open m tid = false ∧ has_entry_obs tid ez = true then 1 else 0) := by
  unfold DetectionsManager.update
  rw [exit_phase_accounting, entry_phase_events, entry_phase_open_count]
  omega

theorem run_updates_accounting (inputs : List UpdIn) (m : DetectionsManager) (tid : ℕ) :
    count_events_for tid (run_updates m inputs).events + open_count (run_updates m inputs) tid
      = count_events_for tid m.events + open_count m tid + count_openings tid m inputs := by
  induction inputs generalizing m with
  | nil => rfl
  | cons u rest ih =>
      show count_events_for tid (run_updates (m.update _ _ _) rest).events
          + open_count (run_updates (m.update _ _ _) rest) tid = _
      rw [ih, update_accounting]
      show _ = _ + (_ + count_openings tid (m.update _ _ _) rest)
      omega

/-! ### Membership lemmas feeding the entry-before-exit invariant -/

theorem entry_obs_step_info_mem (t : ℚ) (i : ℕ) (m : DetectionsManager) (ob : Obs) :
    ∀ p ∈ (entry_obs_step t i m ob).tracker_entry_info,
      p ∈ m.tracker_entry_info ∨ p.2.entry_time = t := by
  unfold entry_obs_step
  split
  · exact fun p hp => Or.inl hp
  · intro p hp
    rcases List.mem_append.1 hp with h | h
    · exact Or.inl h
    · rw [List.mem_singleton] at h
      subst h
      exact Or.inr rfl

theorem entry_zone_step_info_mem (t : ℚ) (i : ℕ) (z : List Obs) (m : DetectionsManager) :
    ∀ p ∈ (entry_zone_step t i m z).tracker_entry_info,
      p ∈ m.tracker_entry_info ∨ p.2.entry_time = t := by
  induction z generalizing m with
  | nil => exact fun p hp => Or.inl hp
  | cons ob z ih =>
      intro p hp
      rw [entry_zone_step_cons] at hp
      rcases ih _ p hp with h | h
      · exact entry_obs_step_info_mem t i m ob p h
      · exact Or.inr h

theorem entry_phase_info_mem (t : ℚ) (zones : List (List Obs)) (i : ℕ)
    (m : DetectionsManager) :
    ∀ p ∈ (entry_phase t zones i m).tracker_entry_info,
      p ∈ m.tracker_entry_info ∨ p.2.entry_time = t := by
  induction zones generalizing i m with
  | nil => exact fun p hp => Or.inl hp
  | cons z rest ih =>
      intro p hp
      rw [entry_phase_cons] at hp
      rcases ih _ _ p hp with h | h
      · exact entry_zone_step_info_mem t i z m p h
      · exact Or.inr h

theorem exit_obs_step_info_mem (t : ℚ) (i : ℕ) (m : DetectionsManager) (k : ℕ) :
    ∀ p ∈ (exit_obs_step t i m k).tracker_entry_info, p ∈ m.tracker_entry_info := by
  unfold exit_obs_step
  split
  · exact fun p hp => hp
  · exact fun p hp => List.mem_of_mem_filter hp

theorem exit_obs_step_events_mem (t : ℚ) (i : ℕ) (m : DetectionsManager) (k : ℕ) :
    ∀ ev ∈ (exit_obs_step t i m k).events,
      ev ∈ m.events
        ∨ (ev.tiempo_salida = t
            ∧ ∃ p ∈ m.tracker_entry_info, ev.tiempo_entrada = p.2.entry_time) := by
  unfold exit_obs_step
  split
  · exact fun ev hev => Or.inl hev
  · next info hl =>
      intro ev hev
      rcases List.mem_append.1 hev with h | h
      · exact Or.inl h
      · rw [List.mem_singleton] at h
        subst h
        exact Or.inr ⟨rfl, (k, info), al_lookup_mem hl, rfl⟩

theorem exit_zone_step_mem (t : ℚ) (i : ℕ) (z : List ℕ) (m : DetectionsManager) :
    (∀ p ∈ (exit_zone_step t i m z).tracker_entry_info, p ∈ m.tracker_entry_info)
      ∧ ∀ ev ∈ (exit_zone_step t i m z).events,
          ev ∈ m.events
            ∨ (ev.tiempo_salida = t
                ∧ ∃ p ∈ m.tracker_entry_info, ev.tiempo_entrada = p.2.entry_time) := by
  induction z generalizing m with
  | nil => exact ⟨fun p hp => hp, fun ev hev => Or.inl hev⟩
  | cons k z ih =>
      obtain ⟨ih1, ih2⟩ := ih (exit_obs_step t i m k)
      refine ⟨?_, ?_⟩
      · intro p hp
        rw [exit_zone_step_cons] at hp
        exact exit_obs_step_info_mem t i m k p (ih1 p hp)
      · intro ev hev
        rw [exit_zone_step_cons] at hev
        rcases ih2 ev hev with h | ⟨hs, p, hp, he⟩
        · rcases exit_obs_step_events_mem t i m k ev h with h2 | ⟨hs, p, hp, he⟩
          · exact Or.inl h2
          · exact Or.inr ⟨hs, p, hp, he⟩
        · exact Or.inr ⟨hs, p, exit_obs_step_info_mem t i m k p hp, he⟩

theorem exit_phase_mem (t : ℚ) (zones : List (List ℕ)) (i : ℕ) (m : DetectionsManager) :
    (∀ p ∈ (exit_phase t zones i m).tracker_entry_info, p ∈ m.tracker_entry_info)
      ∧ ∀ ev ∈ (exit_phase t zones i m).events,
          ev ∈ m.events
            ∨ (ev.tiempo_salida = t
                ∧ ∃ p ∈ m.tracker_entry_info, ev.tiempo_entrada = p.2.entry_time) := by
  induction zones generalizing i m with
  | nil => exact ⟨fun p hp => hp, fun ev hev => Or.inl hev⟩
  | cons z rest ih =>
      obtain ⟨ih1, ih2⟩ := ih (i + 1) (exit_zone_step t i m z)
      obtain ⟨z1, z2⟩ := exit_zone_step_mem t i z m
      refine ⟨?_, ?_⟩
      · intro p hp
        rw [exit_phase_cons] at hp
        exact z1 p (ih1 p hp)
      · intro ev hev
        rw [exit_phase_cons] at hev
        rcases ih2 ev hev with h | ⟨hs, p, hp, he⟩
        · rcases z2 ev h with h2 | ⟨hs, p, hp, he⟩
          · exact Or.inl h2
          · exact Or.inr ⟨hs, p, hp, he⟩
        · exact Or.inr ⟨hs, p, z1 p hp, he⟩

theorem update_fps (m : DetectionsManager) (ez : List (List Obs)) (xz : List (List ℕ))
    (ft : ℚ) : (m.update ez xz ft).fps = m.fps := by
  have h : m.update ez xz ft
      = exit_phase (ft / m.fps) xz 0 (entry_phase (ft / m.fps) ez 0 m) := rfl
  rw [h, exit_phase_fps, entry_phase_fps]

theorem update_inv (m : DetectionsManager) (ez : List (List Obs)) (xz : List (List ℕ))
    (ft b : ℚ) (hb : info_le m b) (hok : events_ok m) (hbt : b ≤ ft / m.fps) :
    info_le (m.update ez xz ft) (ft / m.fps) ∧ events_ok (m.update ez xz ft) := by
  have hupd : m.update ez xz ft
      = exit_phase (ft / m.fps) xz 0 (entry_phase (ft / m.fps) ez 0 m) := rfl
  have h1 : info_le (entry_phase (ft / m.fps) ez 0 m) (ft / m.fps) := by
    intro p hp
    rcases entry_phase_info_mem (ft / m.fps) ez 0 m p hp with h | h
    · exact le_trans (hb p h) hbt
    · exact le_of_eq h
  have h2 : events_ok (entry_phase (ft / m.fps) ez 0 m) := by
    intro ev hev
    rw [entry_phase_events] at hev
    exact hok ev hev
  obtain ⟨x1, x2⟩ := exit_phase_mem (ft / m.fps) xz 0 (entry_phase (ft / m.fps) ez 0 m)
  constructor
  · intro p hp
    rw [hupd] at hp
    exact h1 p (x1 p hp)
  · intro ev hev
    rw [hupd] at hev
    rcases x2 ev hev with h | ⟨hs, p, hp, he⟩
    · exact h2 ev h
    · rw [he, hs]
      exact h1 p hp

theorem run_updates_events_ok (inputs : List UpdIn) :
    ∀ (m : DetectionsManager) (b : ℚ), 0 < m.fps → info_le m b → events_ok m →
      (∀ u ∈ inputs, b ≤ u.frame_time / m.fps) →
      (inputs.map fun u => u.frame_time).Pairwise (· ≤ ·) →
      events_ok (run_updates m inputs) := by
  induction inputs with
  | nil => exact fun m b _ _ hok _ _ => hok
  | cons u rest ih =>
      intro m b hfps hb hok hbound hpair
      have hbu : b ≤ u.frame_time / m.fps := hbound u (List.mem_cons_self _ _)
      obtain ⟨h1, h2⟩ :=
        update_inv m u.detections_in_zones u.detections_out_zones u.frame_time b hb hok hbu
      have hfps2 := update_fps m u.detections_in_zones u.detections_out_zones u.frame_time
      rw [List.map_cons, List.pairwise_cons] at hpair
      show events_ok (run_updates (m.update _ _ _) rest)
      apply ih _ (u.frame_time / m.fps)
      · rw [hfps2]
        exact hfps
      · exact h1
      · exact h2
      · intro u2 hu2
        rw [hfps2]
        exact div_le_div_of_nonneg_right
          (hpair.1 u2.frame_time (List.mem_map_of_mem _ hu2)) (le_of_lt hfps)
      · exact hpair.2

/-! ### Orphan exits are no-ops -/

theorem exit_obs_step_closed_noop {t : ℚ} {i : ℕ} {m : DetectionsManager} {k : ℕ}
    (h : al_lookup k m.tracker_entry_info = none) : exit_obs_step t i m k = m := by
  unfold exit_obs_step
  rw [h]

theorem exit_zone_step_closed_noop {t : ℚ} {i : ℕ} {z : List ℕ} {m : DetectionsManager}
    (h : ∀ k ∈ z, al_lookup k m.tracker_entry_info = none) : exit_zone_step t i m z = m := by
  induction z with
  | nil => rfl
  | cons k z ih =>
      rw [exit_zone_step_cons, exit_obs_step_closed_noop (h k (List.mem_cons_self _ _))]
      exact ih fun k2 h2 => h k2 (List.mem_cons_of_mem _ h2)

theorem exit_phase_closed_noop {t : ℚ} {zones : List (List ℕ)} {i : ℕ}
    {m : DetectionsManager}
    (h : ∀ k ∈ exit_ids zones, al_lookup k m.tracker_entry_info = none) :
    exit_phase t zones i m = m := by
  induction zones generalizing i with
  | nil => rfl
  | cons z rest ih =>
      have hz : ∀ k ∈ z, al_lookup k m.tracker_entry_info = none := by
        intro k hk
        exact h k (by simp [exit_ids, hk])
      have hrest : ∀ k ∈ exit_ids rest, al_lookup k m.tracker_entry_info = none := by
        intro k hk
        exact h k (by simp [exit_ids, hk])
      rw [exit_phase_cons, exit_zone_step_closed_noop hz]
      exact ih hrest

/-! ### First-zone-wins lemmas for the entry phase -/

theorem entry_zone_step_first {t : ℚ} {i : ℕ} {z : List Obs} {m : DetectionsManager}
    {tid : ℕ} (h : al_lookup tid m.tracker_entry_info = none) :
    al_lookup tid (entry_zone_step t i m z).tracker_entry_info
      = match z.find? (fun ob => ob.tracker_id == tid) with
        | some ob => some ⟨i, t, ob.vehicle_type.getD "Desconocido"⟩
        | none => none := by
  induction z generalizing m with
  | nil => simpa using h
  | cons ob z ih =>
      rw [entry_zone_step_cons]
      by_cases he : ob.tracker_id = tid
      · have hfind : (ob :: z).find? (fun o => o.tracker_id == tid) = some ob := by
          simp [List.find?_cons, he]
        rw [hfind]
        have h0 : al_lookup ob.tracker_id m.tracker_entry_info = none := by
          rw [he]
          exact h
        have hins : al_lookup tid (entry_obs_step t i m ob).tracker_entry_info
            = some ⟨i, t, ob.vehicle_type.getD "Desconocido"⟩ := by
          unfold entry_obs_step
          rw [h0]
          exact (al_lookup_append_of_none _ h).trans (by simp [al_lookup, he])
        exact entry_zone_step_lookup_some hins
      · have hfind : (ob :: z).find? (fun o => o.tracker_id == tid)
            = z.find? (fun o => o.tracker_id == tid) := by
          simp [List.find?_cons, he]
        rw [hfind]
        exact ih ((entry_obs_step_lookup_ne he).trans h)

theorem entry_phase_first {t : ℚ} {zones : List (List Obs)} {i : ℕ} {m : DetectionsManager}
    {tid : ℕ} (h : al_lookup tid m.tracker_entry_info = none) :
    al_lookup tid (entry_phase t zones i m).tracker_entry_info
      = (first_entry_match tid zones i).map
          fun p => (⟨p.1, t, p.2.getD "Desconocido"⟩ : EntryInfo) := by
  induction zones generalizing i m with
  | nil => simpa [first_entry_match] using h
  | cons z rest ih =>
      rw [entry_phase_cons]
      cases hf : z.find? (fun ob => ob.tracker_id == tid) with
      | some ob =>
          have hz := entry_zone_step_first h (z := z) (i := i) (t := t)
          simp only [hf] at hz
          rw [entry_phase_lookup_some hz]
          simp [first_entry_match, hf]
      | none =>
          have hz := entry_zone_step_first h (z := z) (i := i) (t := t)
          simp only [hf] at hz
          rw [ih hz]
          simp [first_entry_match, hf]

/-! ### First-zone-wins lemmas for the exit phase -/

theorem exit_obs_step_filter_ne {t : ℚ} {i : ℕ} {m : DetectionsManager} {k tid : ℕ}
    (hk : k ≠ tid) :
    (exit_obs_step t i m k).events.filter (fun e => e.id == tid)
      = m.events.filter fun e => e.id == tid := by
  unfold exit_obs_step
  split
  · rfl
  · next info hl =>
      rw [List.filter_append]
      simp [hk]

theorem exit_obs_step_lookup_keep {t : ℚ} {i : ℕ} {m : DetectionsManager} {k tid : ℕ}
    (hk : k ≠ tid) :
    al_lookup tid (exit_obs_step t i m k).tracker_entry_info
      = al_lookup tid m.tracker_entry_info := by
  unfold exit_obs_step
  split
  · rfl
  · next info hl => exact al_lookup_erase_ne _ hk

theorem exit_obs_step_emit {t : ℚ} {i : ℕ} {m : DetectionsManager} {tid : ℕ} {r : EntryInfo}
    (h : al_lookup tid m.tracker_entry_info = some r) :
    (exit_obs_step t i m tid).events
        = m.events ++ [⟨tid, m.num_rotonda, m.horario, m.dia, r.zone_in_id, i,
            r.entry_time, t, t - r.entry_time, r.vehicle_type⟩]
      ∧ al_lookup tid (exit_obs_step t i m tid).tracker_entry_info = none := by
  unfold exit_obs_step
  rw [h]
  exact ⟨rfl, al_lookup_erase_self _ _⟩

theorem exit_zone_step_closed (t : ℚ) (i : ℕ) (z : List ℕ) (tid : ℕ) :
    ∀ m : DetectionsManager, al_lookup tid m.tracker_entry_info = none →
      (exit_zone_step t i m z).events.filter (fun e => e.id == tid)
          = m.events.filter (fun e => e.id == tid)
        ∧ al_lookup tid (exit_zone_step t i m z).tracker_entry_info = none := by
  induction z with
  | nil => exact fun m h => ⟨rfl, h⟩
  | cons k z ih =>
      intro m h
      rw [exit_zone_step_cons]
      by_cases hk : k = tid
      · subst hk
        rw [exit_obs_step_closed_noop h]
        exact ih m h
      · obtain ⟨c1, c2⟩ := ih (exit_obs_step t i m k) ((exit_obs_step_lookup_keep hk).trans h)
        exact ⟨c1.trans (exit_obs_step_filter_ne hk), c2⟩

theorem exit_zone_step_first (t : ℚ) (i : ℕ) (z : List ℕ) (tid : ℕ) (r : EntryInfo) :
    ∀ m : DetectionsManager, al_lookup tid m.tracker_entry_info = some r →
      (exit_zone_step t i m z).events.filter (fun e => e.id == tid)
          = m.events.filter (fun e => e.id == tid)
            ++ (if tid ∈ z then
                  [⟨tid, m.num_rotonda, m.horario, m.dia, r.zone_in_id, i,
                    r.entry_time, t, t - r.entry_time, r.vehicle_type⟩]
                else [])
        ∧ al_lookup tid (exit_zone_step t i m z).tracker_entry_info
            = (if tid ∈ z then none else some r) := by
  induction z with
  | nil =>
      intro m h
      refine ⟨by simp [exit_zone_step_nil], ?_⟩
      simpa using h
  | cons k z ih =>
      intro m h
      rw [exit_zone_step_cons]
      by_cases hk : k = tid
      · subst hk
        obtain ⟨em, lk⟩ := exit_obs_step_emit h
        obtain ⟨c1, c2⟩ := exit_zone_step_closed t i z k (exit_obs_step t i m k) lk
        have hmem : k ∈ k :: z := List.mem_cons_self _ _
        refine ⟨?_, by simpa [hmem] using c2⟩
        rw [c1, em, List.filter_append, if_pos hmem]
        simp
      · obtain ⟨z1, z2⟩ := ih (exit_obs_step t i m k) ((exit_obs_step_lookup_keep hk).trans h)
        obtain ⟨s1, s2, s3⟩ := exit_obs_step_strings t i m k
        have hne : tid ≠ k := Ne.symm hk
        constructor
        · rw [z1, exit_obs_step_filter_ne hk, s1, s2, s3]
          simp [List.mem_cons, hne]
        · rw [z2]
          simp [List.mem_cons, hne]

theorem exit_phase_closed (t : ℚ) (zones : List (List ℕ)) (tid : ℕ) :
    ∀ (i : ℕ) (m : DetectionsManager), al_lookup tid m.tracker_entry_info = none →
      (exit_phase t zones i m).events.filter (fun e => e.id == tid)
          = m.events.filter (fun e => e.id == tid)
        ∧ al_lookup tid (exit_phase t zones i m).tracker_entry_info = none := by
  induction zones with
  | nil => exact fun i m h => ⟨rfl, h⟩
  | cons z rest ih =>
      intro i m h
      rw [exit_phase_cons]
      obtain ⟨c1, c2⟩ := exit_zone_step_closed t i z tid m h
      obtain ⟨p1, p2⟩ := ih (i + 1) (exit_zone_step t i m z) c2
      exact ⟨p1.trans c1, p2⟩

theorem exit_phase_first (t : ℚ) (zones : List (List ℕ)) (tid : ℕ) (r : EntryInfo) :
    ∀ (i : ℕ) (m : DetectionsManager), al_lookup tid m.tracker_entry_info = some r →
      (exit_phase t zones i m).events.filter (fun e => e.id == tid)
          = m.events.filter (fun e => e.id == tid)
            ++ (match first_exit_match tid zones i with
                | some zo =>
                    [⟨tid, m.num_rotonda, m.horario, m.dia, r.zone_in_id, zo,
                      r.entry_time, t, t - r.entry_time, r.vehicle_type⟩]
                | none => [])
        ∧ al_lookup tid (exit_phase t zones i m).tracker_entry_info
            = (if (first_exit_match tid zones i).isSome then none else some r) := by
  induction zones with
  | nil =>
      intro i m h
      refine ⟨by simp [exit_phase_nil, first_exit_match], ?_⟩
      simpa [exit_phase_nil, first_exit_match] using h
  | cons z rest ih =>
      intro i m h
      rw [exit_phase_cons]
      obtain ⟨z1, z2⟩ := exit_zone_step_first t i z tid r m h
      by_cases hz : tid ∈ z
      · rw [if_pos hz] at z1 z2
        obtain ⟨c1, c2⟩ := exit_phase_closed t rest tid (i + 1) (exit_zone_step t i m z) z2
        refine ⟨?_, ?_⟩
        · rw [c1, z1]
          simp [first_exit_match, hz]
        · rw [c2]
          simp [first_exit_match, hz]
      · rw [if_neg hz] at z1 z2
        obtain ⟨p1, p2⟩ := ih (i + 1) (exit_zone_step t i m z) z2
        obtain ⟨s1, s2, s3⟩ := exit_zone_step_strings t i z m
        refine ⟨?_, ?_⟩
        · rw [p1, s1, s2, s3]
          have z1e : (exit_zone_step t i m z).events.filter (fun e => e.id == tid)
              = m.events.filter fun e => e.id == tid := by
            simpa using z1
          rw [z1e]
          simp [first_exit_match, hz]
        · rw [p2]
          simp [first_exit_match, hz]

/-! ### Stabilization loop lemmas -/

theorem mask_filter_nil_mask {α : Type} (xs : List α) : mask_filter xs [] = [] := by
  cases xs <;> rfl

theorem mask_filter_length_eq {α β : Type} :
    ∀ (bs : List Bool) (xs : List α) (ys : List β), xs.length = ys.length →
      (mask_filter xs bs).length = (mask_filter ys bs).length := by
  intro bs
  induction bs with
  | nil =>
      intro xs ys _
      rw [mask_filter_nil_mask, mask_filter_nil_mask]
      rfl
  | cons b bs ih =>
      intro xs ys h
      cases xs with
      | nil =>
          cases ys with
          | nil => rfl
          | cons y ys => simp at h
      | cons x xs =>
          cases ys with
          | nil => simp at h
          | cons y ys =>
              have h2 : xs.length = ys.length := by simpa using h
              cases b
              · simpa [mask_filter] using ih xs ys h2
              · simpa [mask_filter] using ih xs ys h2

theorem stabilize_loop_cons (o : CVOracle) (ancho alto : ℕ) (fa : Frame) (rest : List Frame)
    (g : Gray) (tr rf : List Point) :
    ∃ (s : StepOut) (tr2 rf2 : List Point),
      stabilize_loop o ancho alto (fa :: rest) g tr rf
        = s :: stabilize_loop o ancho alto rest (o.cvtColor fa) tr2 rf2
      ∧ (s.out_frame = fa ∨ (s.out_frame.width = ancho ∧ s.out_frame.height = alto))
      ∧ s.tracked = tr2 ∧ s.ref = rf2
      ∧ ((tr2 = tr ∧ rf2 = rf)
          ∨ ∃ (nps : List Point) (st : List Bool),
              st.length = tr.length ∧ st.length = nps.length
                ∧ tr2 = mask_filter nps st ∧ rf2 = mask_filter rf st) := by
  cases hflow : o.calcOpticalFlowPyrLK g (o.cvtColor fa) tr with
  | none =>
      exact ⟨⟨fa, tr, rf⟩, tr, rf, by simp [stabilize_loop, hflow], Or.inl rfl, rfl, rfl,
        Or.inl ⟨rfl, rfl⟩⟩
  | some pr =>
      obtain ⟨nps, st⟩ := pr
      by_cases hguard : st.length ≠ tr.length ∨ st.length ≠ nps.length
      · exact ⟨⟨fa, tr, rf⟩, tr, rf, by simp [stabilize_loop, hflow, hguard], Or.inl rfl,
          rfl, rfl, Or.inl ⟨rfl, rfl⟩⟩
      · have hlen := hguard
        push_neg at hlen
        by_cases hfew : (mask_filter tr st).length < 4
        · exact ⟨⟨fa, mask_filter nps st, mask_filter rf st⟩, mask_filter nps st,
            mask_filter rf st,
            by simp [stabilize_loop, hflow, hguard, hfew], Or.inl rfl, rfl, rfl,
            Or.inr ⟨nps, st, hlen.1, hlen.2, rfl, rfl⟩⟩
        · cases hH : o.findHomography (mask_filter nps st) (mask_filter rf st) with
          | some H =>
              exact ⟨⟨warpPerspective o fa H ancho alto, mask_filter nps st,
                mask_filter rf st⟩, mask_filter nps st, mask_filter rf st,
                by simp [stabilize_loop, hflow, hguard, hfew, hH], Or.inr ⟨rfl, rfl⟩,
                rfl, rfl, Or.inr ⟨nps, st, hlen.1, hlen.2, rfl, rfl⟩⟩
          | none =>
              exact ⟨⟨fa, mask_filter nps st, mask_filter rf st⟩, mask_filter nps st,
                mask_filter rf st,
                by simp [stabilize_loop, hflow, hguard, hfew, hH], Or.inl rfl,
                rfl, rfl, Or.inr ⟨nps, st, hlen.1, hlen.2, rfl, rfl⟩⟩

theorem stabilize_loop_length (o : CVOracle) (ancho alto : ℕ) :
    ∀ (fs : List Frame) (g : Gray) (tr rf : List Point),
      (stabilize_loop o ancho alto fs g tr rf).length = fs.length := by
  intro fs
  induction fs with
  | nil => intro g tr rf; rfl
  | cons fa rest ih =>
      intro g tr rf
      obtain ⟨s, tr2, rf2, heq, -, -, -, -⟩ := stabilize_loop_cons o ancho alto fa rest g tr rf
      rw [heq, List.length_cons, ih]
      rfl

theorem stabilize_loop_dims (o : CVOracle) (ancho alto : ℕ) :
    ∀ (fs : List Frame) (g : Gray) (tr rf : List Point),
      (∀ f ∈ fs, f.width = ancho ∧ f.height = alto) →
      ∀ s ∈ stabilize_loop o ancho alto fs g tr rf,
        s.out_frame.width = ancho ∧ s.out_frame.height = alto := by
  intro fs
  induction fs with
  | nil => intro g tr rf _ s hs; simp [stabilize_loop] at hs
  | cons fa rest ih =>
      intro g tr rf hdims s hs
      obtain ⟨s0, tr2, rf2, heq, hout, -, -, -⟩ :=
        stabilize_loop_cons o ancho alto fa rest g tr rf
      rw [heq] at hs
      rcases List.mem_cons.1 hs with h | h
      · subst h
        rcases hout with h2 | h2
        · rw [h2]
          exact hdims fa (List.mem_cons_self _ _)
        · exact h2
      · exact ih _ tr2 rf2 (fun f hf => hdims f (List.mem_cons_of_mem _ hf)) s h

theorem stabilize_loop_len_inv (o : CVOracle) (ancho alto : ℕ) :
    ∀ (fs : List Frame) (g : Gray) (tr rf : List Point), tr.length = rf.length →
      ∀ s ∈ stabilize_loop o ancho alto fs g tr rf, s.tracked.length = s.ref.length := by
  intro fs
  induction fs with
  | nil => intro g tr rf _ s hs; simp [stabilize_loop] at hs
  | cons fa rest ih =>
      intro g tr rf hlen s hs
      obtain ⟨s0, tr2, rf2, heq, -, htr, hrf, hstate⟩ :=
        stabilize_loop_cons o ancho alto fa rest g tr rf
      have h2 : tr2.length = rf2.length := by
        rcases hstate with ⟨h3, h4⟩ | ⟨nps, st, h3, h4, h5, h6⟩
        · rw [h3, h4]
          exact hlen
        · rw [h5, h6]
          exact mask_filter_length_eq st nps rf (by omega)
      rw [heq] at hs
      rcases List.mem_cons.1 hs with h | h
      · subst h
        rw [htr, hrf]
        exact h2
      · exact ih _ tr2 rf2 h2 s h

/-! ### Claim theorems -/

/-- Claim C1, counterexample: a run of the python stabilizer on a one-frame
video in which initialization succeeds (status completed) writes 0 frames,
not 1: the first frame is consumed by initialization and never written, so the
output frame count does not equal the input frame count. -/
theorem stab_frame_count_cex :
    (video_stabilizer_py oracleA 200 (1/100) 15 vid1).status = StabStatus.completed
      ∧ (video_stabilizer_py oracleA 200 (1/100) 15 vid1).written.length
          ≠ vid1.frames.length := by
  decide

/-- Claim C1 (amended): for every run of the stabilizer in which
initialization succeeds (the video opens, the first frame is read, and at
least 4 feature points are detected), the number of frames written equals the
number of input frames minus one (the first frame is consumed during
initialization and never written), and every written output frame has the
first frame's width and height. -/
theorem stab_frame_count (o : CVOracle) (mf : ℕ) (ql md : ℚ) (v : Video)
    (d0 : ℕ) (ds : List ℕ) (pts : List Point)
    (hopen : v.opens = true) (hfr : v.frames = d0 :: ds)
    (hdet : o.goodFeaturesToTrack (o.cvtColor ⟨v.frame_width, v.frame_height, d0⟩)
        mf ql md = some pts)
    (hnum : 4 ≤ pts.length) :
    (video_stabilizer_py o mf ql md v).written.length + 1 = v.frames.length
      ∧ ∀ fr ∈ (video_stabilizer_py o mf ql md v).written,
          fr.width = v.frame_width ∧ fr.height = v.frame_height := by
  have hdec : v.decode = (⟨v.frame_width, v.frame_height, d0⟩ : Frame)
      :: ds.map (fun d => ⟨v.frame_width, v.frame_height, d⟩) := by
    simp [Video.decode, hfr]
  have hres : video_stabilizer_py o mf ql md v
      = ⟨.completed,
          stabilize_loop o v.frame_width v.frame_height
            (ds.map fun d => (⟨v.frame_width, v.frame_height, d⟩ : Frame))
            (o.cvtColor ⟨v.frame_width, v.frame_height, d0⟩) pts pts⟩ := by
    simp [video_stabilizer_py, hopen, hdec, hdet, Nat.not_lt.mpr hnum]
  rw [hres]
  constructor
  · dsimp only [StabResult.written]
    rw [List.length_map, stabilize_loop_length, List.length_map, hfr, List.length_cons]
  · intro fr hmem
    dsimp only [StabResult.written] at hmem
    obtain ⟨s, hs, hout⟩ := List.mem_map.1 hmem
    rw [← hout]
    refine stabilize_loop_dims o _ _ _ _ _ _ ?_ s hs
    intro f hf
    obtain ⟨d, -, hfd⟩ := List.mem_map.1 hf
    rw [← hfd]
    exact ⟨rfl, rfl⟩

/-- Claim C1, witness: on a concrete two-frame video with successful
initialization the stabilizer writes exactly one frame. -/
theorem stab_frame_count_witness :
    (video_stabilizer_py oracleA 200 (1/100) 15 vid2).written.length + 1
      = vid2.frames.length :=
  (stab_frame_count oracleA 200 (1/100) 15 vid2 10 [11] pts4 rfl rfl rfl (by decide)).1

/-- Claim C2: for every sequence of update calls starting from a freshly
constructed DetectionsManager and every tracker id, the number of emitted
events carrying that id is at most the number of update calls at which a fresh
record is opened for it (an entry-zone observation arriving while the id has
no open record): at most one event per open-to-close cycle. -/
theorem tracker_single_event_per_cycle (num_rotonda horario dia : String) (fps : ℚ)
    (inputs : List UpdIn) (tid : ℕ) :
    count_events_for tid
        (run_updates (DetectionsManager.init num_rotonda horario dia fps) inputs).events
      ≤ count_openings tid (DetectionsManager.init num_rotonda horario dia fps) inputs := by
  have h := run_updates_accounting inputs (DetectionsManager.init num_rotonda horario dia fps) tid
  have h0 : count_events_for tid (DetectionsManager.init num_rotonda horario dia fps).events
      = 0 := rfl
  have h1 : open_count (DetectionsManager.init num_rotonda horario dia fps) tid = 0 := rfl
  omega

/-- Evaluation of the C3 entry-then-exit scenario: id 7 enters zone 1 at frame
time 30 and leaves through zone 0 at frame time 90 with fps 30. -/
theorem scenario_c3_events :
    (run_updates (DetectionsManager.init "R1" "Mat" "Lun" 30)
        [⟨[[], [⟨7, some "Auto"⟩]], [], 30⟩, ⟨[], [[7]], 90⟩]).events
      = [⟨7, "R1", "Mat", "Lun", 1, 0, 1, 3, 2, "Auto"⟩] := by
  norm_num [run_updates, DetectionsManager.update, DetectionsManager.init, entry_phase,
    exit_phase, entry_zone_step, exit_zone_step, entry_obs_step, exit_obs_step,
    al_lookup, al_setdefault, al_erase, al_modify, set_add]

/-- Evaluation of the C3 same-frame scenario: id 5 enters and exits at frame
time 60 within one update call, with fps 30. -/
theorem scenario_same_frame_events :
    (run_updates (DetectionsManager.init "R1" "Mat" "Lun" 30)
        [⟨[[⟨5, some "Bus"⟩]], [[5]], 60⟩]).events
      = [⟨5, "R1", "Mat", "Lun", 0, 0, 2, 2, 0, "Bus"⟩] := by
  norm_num [run_updates, DetectionsManager.update, DetectionsManager.init, entry_phase,
    exit_phase, entry_zone_step, exit_zone_step, entry_obs_step, exit_obs_step,
    al_lookup, al_setdefault, al_erase, al_modify, set_add]

/-- Claim C3: with fps 30, object id 7 matching entry zone 1 at frame time 30
and exit zone 0 at frame time 90 produces exactly one event with entry zone 1,
exit zone 0, entry time 1 s, exit time 3 s and dwell 2 s; and an entry and
exit for the same id in the same processed frame yield dwell 0. -/
theorem tracker_timing_scenario :
    (run_updates (DetectionsManager.init "R1" "Mat" "Lun" 30)
        [⟨[[], [⟨7, some "Auto"⟩]], [], 30⟩, ⟨[], [[7]], 90⟩]).events
      = [⟨7, "R1", "Mat", "Lun", 1, 0, 1, 3, 2, "Auto"⟩]
      ∧ (run_updates (DetectionsManager.init "R1" "Mat" "Lun" 30)
          [⟨[[⟨5, some "Bus"⟩]], [[5]], 60⟩]).events
        = [⟨5, "R1", "Mat", "Lun", 0, 0, 2, 2, 0, "Bus"⟩] :=
  ⟨scenario_c3_events, scenario_same_frame_events⟩

/-- Claim C4: for every sequence of update calls with nondecreasing frame
times (and positive fps), every emitted event satisfies exit time at or after
entry time. -/
theorem tracker_event_times_ordered (num_rotonda horario dia : String) (fps : ℚ)
    (hfps : 0 < fps) (inputs : List UpdIn)
    (hmono : (inputs.map fun u => u.frame_time).Pairwise (· ≤ ·)) :
    ∀ ev ∈ (run_updates (DetectionsManager.init num_rotonda horario dia fps) inputs).events,
      ev.tiempo_entrada ≤ ev.tiempo_salida := by
  cases inputs with
  | nil => intro ev hev; exact absurd hev (List.not_mem_nil ev)
  | cons u rest =>
      show events_ok _
      apply run_updates_events_ok (u :: rest) _ (u.frame_time / fps)
      · exact hfps
      · intro p hp
        exact absurd hp (List.not_mem_nil p)
      · intro ev hev
        exact absurd hev (List.not_mem_nil ev)
      · intro u2 hu2
        rcases List.mem_cons.1 hu2 with h | h
        · rw [h]
          exact le_refl _
        · rw [List.map_cons, List.pairwise_cons] at hmono
          exact div_le_div_of_nonneg_right
            (hmono.1 _ (List.mem_map_of_mem _ h)) (le_of_lt hfps)
      · exact hmono

/-- Claim C4, witness: applying the order property to the concrete event of
the timing scenario. -/
theorem tracker_event_times_ordered_witness : (1 : ℚ) ≤ 3 :=
  tracker_event_times_ordered "R1" "Mat" "Lun" 30 (by norm_num)
    [⟨[[], [⟨7, some "Auto"⟩]], [], 30⟩, ⟨[], [[7]], 90⟩] (by decide)
    ⟨7, "R1", "Mat", "Lun", 1, 0, 1, 3, 2, "Auto"⟩
    (by rw [scenario_c3_events]; exact List.mem_singleton.mpr rfl)

/-- Claim C5: an update call consisting only of exit-zone observations of ids
with no open record is a no-op: the event list, the counts structure and the
open-record table are unchanged. -/
theorem tracker_orphan_exit_noop (m : DetectionsManager) (xz : List (List ℕ)) (ft : ℚ)
    (h : ∀ tid ∈ exit_ids xz, al_lookup tid m.tracker_entry_info = none) :
    (m.update [] xz ft).events = m.events
      ∧ (m.update [] xz ft).counts = m.counts
      ∧ (m.update [] xz ft).tracker_entry_info = m.tracker_entry_info := by
  have hupd : m.update [] xz ft = exit_phase (ft / m.fps) xz 0 m := rfl
  rw [hupd, exit_phase_closed_noop h]
  exact ⟨rfl, rfl, rfl⟩

/-- Claim C5, witness: object id 9 observed in exit zone 2 at frame time 10
with no prior entry leaves the fresh manager unchanged. -/
theorem tracker_orphan_exit_noop_witness :
    ((DetectionsManager.init "R1" "Mat" "Lun" 30).update [] [[], [], [9]] 10).events
        = (DetectionsManager.init "R1" "Mat" "Lun" 30).events
      ∧ ((DetectionsManager.init "R1" "Mat" "Lun" 30).update [] [[], [], [9]] 10).counts
          = (DetectionsManager.init "R1" "Mat" "Lun" 30).counts
      ∧ ((DetectionsManager.init "R1" "Mat" "Lun" 30).update [] [[], [], [9]] 10).tracker_entry_info
          = (DetectionsManager.init "R1" "Mat" "Lun" 30).tracker_entry_info :=
  tracker_orphan_exit_noop (DetectionsManager.init "R1" "Mat" "Lun" 30) [[], [], [9]] 10
    fun _ _ => rfl

/-- Claim C6: when goodFeaturesToTrack yields no result or fewer than 4 points
on the first frame, the run reports the insufficient-features failure and
writes no frames at all. -/
theorem stab_insufficient_features (o : CVOracle) (mf : ℕ) (ql md : ℚ) (v : Video)
    (d0 : ℕ) (ds : List ℕ)
    (hopen : v.opens = true) (hfr : v.frames = d0 :: ds)
    (hdet :
      o.goodFeaturesToTrack (o.cvtColor ⟨v.frame_width, v.frame_height, d0⟩) mf ql md = none
        ∨ ∃ pts,
            o.goodFeaturesToTrack (o.cvtColor ⟨v.frame_width, v.frame_height, d0⟩) mf ql md
                = some pts
              ∧ pts.length < 4) :
    (video_stabilizer_py o mf ql md v).status = StabStatus.insufficientFeatures
      ∧ (video_stabilizer_py o mf ql md v).written = [] := by
  have hdec : v.decode = (⟨v.frame_width, v.frame_height, d0⟩ : Frame)
      :: ds.map (fun d => ⟨v.frame_width, v.frame_height, d⟩) := by
    simp [Video.decode, hfr]
  rcases hdet with h | ⟨pts, h, hl⟩
  · constructor <;> simp [video_stabilizer_py, hopen, hdec, h, StabResult.written]
  · constructor <;> simp [video_stabilizer_py, hopen, hdec, h, hl, StabResult.written]

/-- Claim C6, witness: an oracle detecting a single feature point makes the
run fail with no output. -/
theorem stab_insufficient_features_witness :
    (video_stabilizer_py oracleB 200 (1/100) 15 vid2).status
        = StabStatus.insufficientFeatures
      ∧ (video_stabilizer_py oracleB 200 (1/100) 15 vid2).written = [] :=
  stab_insufficient_features oracleB 200 (1/100) 15 vid2 10 [11] rfl rfl
    (Or.inr ⟨[(0, 0)], rfl, by norm_num⟩)

/-- Claim C7: at any loop step where optical flow succeeds with consistent
lengths but fewer than 4 points survive the status-mask filtering, the output
frame is exactly the unmodified input frame, and the filtered (smaller) new
and reference point sets are still adopted as the state for the next frame. -/
theorem stab_passthrough_few_points (o : CVOracle) (ancho alto : ℕ) (fa : Frame)
    (rest : List Frame) (g : Gray) (tr rf nps : List Point) (st : List Bool)
    (hflow : o.calcOpticalFlowPyrLK g (o.cvtColor fa) tr = some (nps, st))
    (hl1 : st.length = tr.length) (hl2 : st.length = nps.length)
    (hfew : (mask_filter tr st).length < 4) :
    stabilize_loop o ancho alto (fa :: rest) g tr rf
      = ⟨fa, mask_filter nps st, mask_filter rf st⟩
          :: stabilize_loop o ancho alto rest (o.cvtColor fa)
              (mask_filter nps st) (mask_filter rf st) := by
  have hguard : ¬(st.length ≠ tr.length ∨ st.length ≠ nps.length) := by
    omega
  simp [stabilize_loop, hflow, hguard, hfew]

/-- Claim C7, witness: a concrete step with 3 surviving points emits the raw
frame and adopts the filtered point sets. -/
theorem stab_passthrough_few_points_witness :
    stabilize_loop oracleC 2 2 [⟨2, 2, 11⟩] 10 pts4 pts4
      = [⟨⟨2, 2, 11⟩, mask_filter pts4 [true, true, true, false],
          mask_filter pts4 [true, true, true, false]⟩] := by
  rw [stab_passthrough_few_points oracleC 2 2 ⟨2, 2, 11⟩ [] 10 pts4 pts4 pts4
    [true, true, true, false] rfl rfl rfl (by decide)]
  rfl

/-- Claim C8: at every step of every stabilizer run, the adopted tracked and
reference point sets have equal length; the invariant holds from
initialization (where both sets are the same detected list) and is preserved
on every branch of the loop. -/
theorem stab_tracked_ref_len (o : CVOracle) (mf : ℕ) (ql md : ℚ) (v : Video) :
    ∀ s ∈ (video_stabilizer_py o mf ql md v).steps, s.tracked.length = s.ref.length := by
  intro s hs
  unfold video_stabilizer_py at hs
  split at hs
  · exact absurd hs (List.not_mem_nil s)
  · split at hs
    · exact absurd hs (List.not_mem_nil s)
    · dsimp only at hs
      split at hs
      · exact absurd hs (List.not_mem_nil s)
      · split at hs
        · exact absurd hs (List.not_mem_nil s)
        · exact stabilize_loop_len_inv o _ _ _ _ _ _ rfl s hs

/-- Claim C8, witness: the invariant evaluated at the single step of a
concrete run. -/
theorem stab_tracked_ref_len_witness :
    (⟨⟨2, 2, 11⟩, pts4, pts4⟩ : StepOut).tracked.length
      = (⟨⟨2, 2, 11⟩, pts4, pts4⟩ : StepOut).ref.length :=
  stab_tracked_ref_len oracleA 200 (1/100) 15 vid2 ⟨⟨2, 2, 11⟩, pts4, pts4⟩ (by decide)

/-- Claim C9: zone-multiplicity tie-break. For the entry loop: an observation
of an id that already has an open record leaves that record unchanged, and for
an id with no open record the record opened is the one of the first entry zone
in enumeration order containing the id. For the exit loop: an id with an open
record produces exactly one event, whose exit zone is the first exit zone in
enumeration order containing the id, after which the record is deleted, so
later exit zones in the same frame have no effect. -/
theorem tracker_first_zone_wins (m : DetectionsManager) (t : ℚ) (ez : List (List Obs))
    (xz : List (List ℕ)) (tid : ℕ) :
    (∀ r, al_lookup tid m.tracker_entry_info = some r →
        al_lookup tid (entry_phase t ez 0 m).tracker_entry_info = some r)
      ∧ (al_lookup tid m.tracker_entry_info = none →
          al_lookup tid (entry_phase t ez 0 m).tracker_entry_info
            = (first_entry_match tid ez 0).map
                fun p => (⟨p.1, t, p.2.getD "Desconocido"⟩ : EntryInfo))
      ∧ ∀ r, al_lookup tid m.tracker_entry_info = some r →
          (exit_phase t xz 0 m).events.filter (fun e => e.id == tid)
              = m.events.filter (fun e => e.id == tid)
                ++ (match first_exit_match tid xz 0 with
                    | some zo =>
                        [⟨tid, m.num_rotonda, m.horario, m.dia, r.zone_in_id, zo,
                          r.entry_time, t, t - r.entry_time, r.vehicle_type⟩]
                    | none => [])
            ∧ al_lookup tid (exit_phase t xz 0 m).tracker_entry_info
                = (if (first_exit_match tid xz 0).isSome then none else some r) :=
  ⟨fun _ h => entry_phase_lookup_some h,
   fun h => entry_phase_first h,
   fun r h => exit_phase_first t xz tid r 0 m h⟩

/-- Claim C9, witness: id 7 observed in entry zones 1 and 2 of the same frame
opens a record for zone 1 with zone 1's vehicle type. -/
theorem tracker_first_zone_wins_witness :
    al_lookup 7 (entry_phase 1 [[⟨8, some "Bus"⟩], [⟨7, some "Auto"⟩], [⟨7, some "Moto"⟩]] 0
        (DetectionsManager.init "R1" "Mat" "Lun" 30)).tracker_entry_info
      = some ⟨1, 1, "Auto"⟩ := by
  have h := (tracker_first_zone_wins (DetectionsManager.init "R1" "Mat" "Lun" 30) 1
    [[⟨8, some "Bus"⟩], [⟨7, some "Auto"⟩], [⟨7, some "Moto"⟩]] [] 7).2.1 rfl
  rw [h]
  decide

/-- Claim C10: for every input video whose container-reported width and height
equal the decoded frame width and height, and for identical oracle results,
the src/services and src/python/services stabilizers write identical output
frame sequences. -/
theorem stabilizers_equivalent (o : CVOracle) (mf : ℕ) (ql md : ℚ) (v : Video)
    (hw : v.container_width = v.frame_width) (hh : v.container_height = v.frame_height) :
    (video_stabilizer_srv o mf ql md v).written
      = (video_stabilizer_py o mf ql md v).written := by
  by_cases hopen : v.opens = false
  · simp [video_stabilizer_srv, video_stabilizer_py, hopen]
  · cases hfr : v.frames with
    | nil =>
        simp [video_stabilizer_srv, video_stabilizer_py, hopen, Video.decode, hfr]
    | cons d0 ds =>
        have hdec : v.decode = (⟨v.frame_width, v.frame_height, d0⟩ : Frame)
            :: ds.map (fun d => ⟨v.frame_width, v.frame_height, d⟩) := by
          simp [Video.decode, hfr]
        simp [video_stabilizer_srv, video_stabilizer_py, hopen, hdec, hw, hh]

/-- Claim C10, witness: the two stabilizers agree on a concrete video with
matching container metadata. -/
theorem stabilizers_equivalent_witness :
    (video_stabilizer_srv oracleA 200 (1/100) 15 vid2).written
      = (video_stabilizer_py oracleA 200 (1/100) 15 vid2).written :=
  stabilizers_equivalent oracleA 200 (1/100) 15 vid2 rfl rfl

end Rotondas
